import Mathlib

/-!
Verification of the cash-loss calculator core: the rate derivation
(`getInputs`), the loss formula (`computeLoss`, with the historical
opportunity-cost-only variant under `V0`), the per-event calculation
pipeline (`runCalculation`) and the explanation popup builder
(`buildHowCalculatedPopup`).  JavaScript numbers carried by data records
are modelled as rationals (every finite JS number is rational); the loss
arithmetic itself is modelled over the reals with real exponentiation,
since the horizon is specified as an arbitrary positive real.
-/

/-- A raw field value as it can appear on a country data record: absent
(JS `undefined`/`null`), a non-finite number (`NaN`, `Infinity`), or a
finite number, carried as a rational. -/
inductive RawVal where
  | missing
  | nonFinite
  | num (q : ℚ)
deriving DecidableEq

/-- Embeds `parseFiniteNumber` from the source: a finite number passes
through, everything else (absent or non-finite) yields `null`, modelled
as `none`. -/
def parseFiniteNumber : RawVal → Option ℚ
  | RawVal.num q => some q
  | _ => none

/-- The CPI pair of a country record (`cpi` field in the dataset). -/
structure Cpi where
  latest : RawVal
  latestDate : String
  previous : RawVal
  previousDate : String
deriving DecidableEq

/-- The interest-rate field of a country record (`rate` in the dataset). -/
structure RateRec where
  value : RawVal
  date : String
deriving DecidableEq

/-- A country economic record as loaded from `data/countries.json`; the
`cpi` and `rate` objects are optional, matching the duck-typed access in
the source. -/
structure Country where
  id : String
  name : String
  currencyCode : String
  currencySymbol : String
  cpi : Option Cpi
  rate : Option RateRec
deriving DecidableEq

/-- The derived rates returned by `getInputs` (the DerivedRates record of
the spec). -/
structure Inputs where
  inflationRate : ℚ
  interestRate : ℚ
  hasRate : Bool
deriving DecidableEq

/-- Access `cpi && cpi.latest`: a missing `cpi` object makes the field
read yield a non-number, which `parseFiniteNumber` rejects. -/
def cpiLatestRaw : Option Cpi → RawVal
  | none => RawVal.missing
  | some cp => cp.latest

/-- Access `cpi && cpi.previous`, as in `cpiLatestRaw`. -/
def cpiPreviousRaw : Option Cpi → RawVal
  | none => RawVal.missing
  | some cp => cp.previous

/-- Access `country && country.rate && country.rate.value`. -/
def rateValueRaw : Option Country → RawVal
  | none => RawVal.missing
  | some c =>
    match c.rate with
    | none => RawVal.missing
    | some rt => rt.value

/-- Embeds `getInputs` from the source (the deriveRates contract of the
spec): reject the record unless both CPI values parse to positive finite
numbers, derive the inflation rate from the CPI ratio, and derive the
interest rate from the optional rate field, recording its presence. -/
def getInputs (country : Option Country) : Option Inputs :=
  let cpi := country.bind fun c => c.cpi
  let cpiLatest := parseFiniteNumber (cpiLatestRaw cpi)
  let cpiPrevious := parseFiniteNumber (cpiPreviousRaw cpi)
  match cpiLatest, cpiPrevious with
  | some l, some p =>
    if l ≤ 0 ∨ p ≤ 0 then none
    else
      match parseFiniteNumber (rateValueRaw country) with
      | some v => some ⟨l / p - 1, v / 100, true⟩
      | none => some ⟨l / p - 1, 0, false⟩
  | _, _ => none

/-- Embeds `computeLoss` from the current build: total loss in present
money, inflation erosion plus opportunity cost, with a real horizon. -/
noncomputable def computeLoss
    (amount inflationDecimal savingsRateDecimal years : ℝ) : ℝ :=
  let factor := (1 + inflationDecimal) ^ years
  let inflationErosion := amount * (1 - 1 / factor)
  let opportunityCost :=
    (amount / factor) * ((1 + savingsRateDecimal) ^ years - 1)
  inflationErosion + opportunityCost

namespace V0

/-- Embeds `computeLoss` from the historical variant in `app.js`: only
the opportunity-cost term, no inflation-erosion term. -/
noncomputable def computeLoss
    (amount inflationDecimal savingsRateDecimal years : ℝ) : ℝ :=
  let factor := (1 + inflationDecimal) ^ years
  let growthFactor := (1 + savingsRateDecimal) ^ years
  (amount / factor) * (growthFactor - 1)

end V0

/-- What the pipeline hands to the display layer: either the neutral
placeholder (rendered as a dash) or three numeric results. -/
inductive DisplayResult where
  | unavailable
  | values (oneYear fiveYear tenYear : ℝ)

/-- Embeds `runCalculation` from the current build: an invalid or
negative amount, a missing country, or a failed derivation all yield the
neutral state; otherwise the one-year result uses the additive form and
the longer horizons use `computeLoss`.  The amount argument is the
`parseFloat` result of the input field, with `none` for `NaN`. -/
noncomputable def runCalculation
    (amount : Option ℚ) (country : Option Country) : DisplayResult :=
  match amount with
  | none => DisplayResult.unavailable
  | some a =>
    if a < 0 then DisplayResult.unavailable
    else
      match country with
      | none => DisplayResult.unavailable
      | some c =>
        match getInputs (some c) with
        | none => DisplayResult.unavailable
        | some inp =>
          DisplayResult.values
            ((a : ℝ) * (inp.inflationRate : ℝ) +
              (a : ℝ) * (inp.interestRate : ℝ))
            (computeLoss (a : ℝ) (inp.inflationRate : ℝ)
              (inp.interestRate : ℝ) 5)
            (computeLoss (a : ℝ) (inp.inflationRate : ℝ)
              (inp.interestRate : ℝ) 10)

/-- The built-in fallback record from the source (`FALLBACK_COUNTRIES`):
United States, CPI latest 102.1, previous 100.0, rate 4.0. -/
def usCountry : Country :=
  { id := "US"
    name := "United States"
    currencyCode := "USD"
    currencySymbol := "$"
    cpi := some ⟨RawVal.num (1021 / 10), "2024-M12", RawVal.num 100, "2023-M12"⟩
    rate := some ⟨RawVal.num 4, "2024-M12"⟩ }

/-- The rates the derivation produces for `usCountry`. -/
def usInputs : Inputs := ⟨21 / 1000, 1 / 25, true⟩

/-- Evaluation of the derivation on the fallback record. -/
theorem getInputs_us : getInputs (some usCountry) = some usInputs := by
  simp only [getInputs, usCountry, usInputs, cpiLatestRaw, cpiPreviousRaw,
    rateValueRaw, parseFiniteNumber, Option.some_bind]
  norm_num

/-- Inversion of a successful derivation: the record must carry a CPI
object, both CPI values must parse to positive finite numbers, and the
result is the CPI-ratio inflation rate together with the rate handling
on the optional rate field. -/
theorem getInputs_some_elim (c : Country) (inp : Inputs)
    (h : getInputs (some c) = some inp) :
    ∃ cp l p, c.cpi = some cp ∧
      parseFiniteNumber cp.latest = some l ∧
      parseFiniteNumber cp.previous = some p ∧ 0 < l ∧ 0 < p ∧
      ((∃ v, parseFiniteNumber (rateValueRaw (some c)) = some v ∧
          inp = ⟨l / p - 1, v / 100, true⟩) ∨
        (parseFiniteNumber (rateValueRaw (some c)) = none ∧
          inp = ⟨l / p - 1, 0, false⟩)) := by
  cases hcpi : c.cpi with
  | none =>
    simp [getInputs, hcpi, cpiLatestRaw, parseFiniteNumber] at h
  | some cp =>
    simp only [getInputs, Option.some_bind, hcpi, cpiLatestRaw,
      cpiPreviousRaw] at h
    split at h
    · rename_i l p hl hp
      split at h
      · exact absurd h (by simp)
      · rename_i hle
        push_neg at hle
        split at h
        · rename_i v hr
          exact ⟨cp, l, p, rfl, hl, hp, hle.1, hle.2,
            Or.inl ⟨v, hr, (Option.some_injective _ h).symm⟩⟩
        · rename_i hr
          exact ⟨cp, l, p, rfl, hl, hp, hle.1, hle.2,
            Or.inr ⟨hr, (Option.some_injective _ h).symm⟩⟩
    · exact absurd h (by simp)

/-- A successful derivation always yields an inflation rate strictly
above minus one, because both CPI values are required to be positive. -/
theorem getInputs_inflation_gt (copt : Option Country) (inp : Inputs)
    (h : getInputs copt = some inp) : -1 < inp.inflationRate := by
  cases copt with
  | none => simp [getInputs, cpiLatestRaw, parseFiniteNumber] at h
  | some c =>
    obtain ⟨cp, l, p, _, _, _, hl0, hp0, hcase⟩ := getInputs_some_elim c inp h
    have hdiv : 0 < l / p := div_pos hl0 hp0
    rcases hcase with ⟨v, _, hinp⟩ | ⟨_, hinp⟩ <;> rw [hinp] <;>
      simpa using by linarith

/-- Algebraic form of the loss used by the monotonicity analysis: for a
positive growth base, the loss separates into the principal, a ratio
term and a discount term. -/
theorem computeLoss_eq (P i r n : ℝ) (hi : 0 < 1 + i) :
    computeLoss P i r n =
      P + P * ((1 + r) ^ n / (1 + i) ^ n) - 2 * (P / (1 + i) ^ n) := by
  have hf : (0:ℝ) < (1 + i) ^ n := Real.rpow_pos_of_pos hi n
  simp only [computeLoss]
  field_simp
  ring

/-- C1: for every non-negative amount P, reals i and r with 1 + i > 0,
and positive real n, computeLoss equals the closed-form full loss
P * (1 - 1/(1+i)^n) + (P/(1+i)^n) * ((1+r)^n - 1). -/
theorem computeLoss_closed_form (P i r n : ℝ) (hP : 0 ≤ P)
    (hi : 0 < 1 + i) (hn : 0 < n) :
    computeLoss P i r n =
      P * (1 - 1 / (1 + i) ^ n) + (P / (1 + i) ^ n) * ((1 + r) ^ n - 1) :=
  rfl

/-- Witness for C1 at the end-to-end scenario amount and rates with the
five-year horizon. -/
theorem computeLoss_closed_form_witness :
    (0:ℝ) ≤ 10000 ∧ (0:ℝ) < 1 + 21 / 1000 ∧ (0:ℝ) < 5 ∧
      computeLoss 10000 (21 / 1000) (1 / 25) 5 =
        10000 * (1 - 1 / (1 + 21 / 1000) ^ (5:ℝ)) +
          (10000 / (1 + 21 / 1000) ^ (5:ℝ)) * ((1 + 1 / 25) ^ (5:ℝ) - 1) :=
  ⟨by norm_num, by norm_num, by norm_num,
    computeLoss_closed_form 10000 (21 / 1000) (1 / 25) 5 (by norm_num)
      (by norm_num) (by norm_num)⟩

/-- C6: a zero amount yields zero loss for any rates and horizon, and
zero rates yield zero loss for any amount and horizon; both hold for the
current formula and for the historical opportunity-cost-only variant. -/
theorem computeLoss_zero_cases :
    (∀ i r n : ℝ, 0 < 1 + i → 0 < n → computeLoss 0 i r n = 0) ∧
    (∀ P n : ℝ, computeLoss P 0 0 n = 0) ∧
    (∀ i r n : ℝ, V0.computeLoss 0 i r n = 0) ∧
    (∀ P n : ℝ, V0.computeLoss P 0 0 n = 0) := by
  refine ⟨fun i r n _ _ => ?_, fun P n => ?_, fun i r n => ?_, fun P n => ?_⟩
  · simp [computeLoss]
  · simp [computeLoss, Real.one_rpow]
  · simp [V0.computeLoss]
  · simp [V0.computeLoss, Real.one_rpow]

/-- Witness for C6 at concrete rates, amounts and horizons. -/
theorem computeLoss_zero_cases_witness :
    ((0:ℝ) < 1 + 1 ∧ (0:ℝ) < 2 ∧ computeLoss 0 1 (1 / 2) 2 = 0) ∧
      computeLoss 7 0 0 3 = 0 ∧ V0.computeLoss 0 1 (1 / 2) 2 = 0 ∧
      V0.computeLoss 7 0 0 3 = 0 :=
  ⟨⟨by norm_num, by norm_num,
      computeLoss_zero_cases.1 1 (1 / 2) 2 (by norm_num) (by norm_num)⟩,
    computeLoss_zero_cases.2.1 7 3,
    computeLoss_zero_cases.2.2.1 1 (1 / 2) 2,
    computeLoss_zero_cases.2.2.2 7 3⟩

/-- C3: a CPI-based record whose latest or previous index value is
missing, non-finite, or parses to a non-positive number makes the
derivation return the unavailable result, never a partial value. -/
theorem getInputs_unavailable_on_bad_cpi (c : Country)
    (h : parseFiniteNumber (cpiLatestRaw c.cpi) = none ∨
      parseFiniteNumber (cpiPreviousRaw c.cpi) = none ∨
      (∃ q, parseFiniteNumber (cpiLatestRaw c.cpi) = some q ∧ q ≤ 0) ∨
      (∃ q, parseFiniteNumber (cpiPreviousRaw c.cpi) = some q ∧ q ≤ 0)) :
    getInputs (some c) = none := by
  cases hres : getInputs (some c) with
  | none => rfl
  | some inp =>
    exfalso
    obtain ⟨cp, l, p, hcpi, hl, hp, hl0, hp0, _⟩ :=
      getInputs_some_elim c inp hres
    rw [hcpi] at h
    simp only [cpiLatestRaw, cpiPreviousRaw] at h
    rcases h with h | h | ⟨q, hq, hq0⟩ | ⟨q, hq, hq0⟩
    · rw [hl] at h; exact Option.noConfusion h
    · rw [hp] at h; exact Option.noConfusion h
    · rw [hl] at hq
      obtain rfl := Option.some_injective _ hq
      linarith
    · rw [hp] at hq
      obtain rfl := Option.some_injective _ hq
      linarith

/-- A record whose previous CPI index value is zero. -/
def zeroPrevCountry : Country :=
  { id := "ZZ"
    name := "Zeroland"
    currencyCode := "ZZD"
    currencySymbol := "z"
    cpi := some ⟨RawVal.num 105, "2024-M12", RawVal.num 0, "2023-M12"⟩
    rate := none }

/-- Witness for C3: the record with previous index value zero yields the
unavailable result. -/
theorem getInputs_unavailable_on_bad_cpi_witness :
    (∃ q, parseFiniteNumber (cpiPreviousRaw zeroPrevCountry.cpi) = some q ∧
      q ≤ 0) ∧
      getInputs (some zeroPrevCountry) = none :=
  ⟨⟨0, rfl, le_refl 0⟩,
    getInputs_unavailable_on_bad_cpi zeroPrevCountry
      (Or.inr (Or.inr (Or.inr ⟨0, rfl, le_refl 0⟩)))⟩

/-- C4: with both CPI values present, finite and positive, the derived
inflation rate is the CPI ratio minus one. -/
theorem getInputs_cpi_ratio (c : Country) (l p : ℚ)
    (hl : parseFiniteNumber (cpiLatestRaw c.cpi) = some l)
    (hp : parseFiniteNumber (cpiPreviousRaw c.cpi) = some p)
    (hl0 : 0 < l) (hp0 : 0 < p) :
    ∃ inp, getInputs (some c) = some inp ∧ inp.inflationRate = l / p - 1 := by
  have hcond : ¬(l ≤ 0 ∨ p ≤ 0) := by push_neg; exact ⟨hl0, hp0⟩
  cases hr : parseFiniteNumber (rateValueRaw (some c)) with
  | some v =>
    exact ⟨⟨l / p - 1, v / 100, true⟩,
      by simp [getInputs, hl, hp, hcond, hr], rfl⟩
  | none =>
    exact ⟨⟨l / p - 1, 0, false⟩,
      by simp [getInputs, hl, hp, hcond, hr], rfl⟩

/-- Witness for C4: the fallback record with CPI 102.1 over 100.0
derives an inflation rate of exactly 0.021. -/
theorem getInputs_cpi_ratio_witness :
    parseFiniteNumber (cpiLatestRaw usCountry.cpi) = some (1021 / 10) ∧
      parseFiniteNumber (cpiPreviousRaw usCountry.cpi) = some 100 ∧
      (0:ℚ) < 1021 / 10 ∧ (0:ℚ) < 100 ∧
      ∃ inp, getInputs (some usCountry) = some inp ∧
        inp.inflationRate = 21 / 1000 := by
  refine ⟨rfl, rfl, by norm_num, by norm_num, ?_⟩
  obtain ⟨inp, h1, h2⟩ := getInputs_cpi_ratio usCountry (1021 / 10) 100
    rfl rfl (by norm_num) (by norm_num)
  exact ⟨inp, h1, by rw [h2]; norm_num⟩

/-- C5: on a record whose derivation succeeds, a present finite rate
value sets hasRate and divides the value by one hundred, while an absent
or non-finite rate value clears hasRate and zeroes the interest rate. -/
theorem getInputs_rate_handling (c : Country) (inp : Inputs)
    (h : getInputs (some c) = some inp) :
    (∃ v, parseFiniteNumber (rateValueRaw (some c)) = some v ∧
      inp.hasRate = true ∧ inp.interestRate = v / 100) ∨
    (parseFiniteNumber (rateValueRaw (some c)) = none ∧
      inp.hasRate = false ∧ inp.interestRate = 0) := by
  obtain ⟨cp, l, p, _, _, _, _, _, hcase⟩ := getInputs_some_elim c inp h
  rcases hcase with ⟨v, hr, hinp⟩ | ⟨hr, hinp⟩
  · exact Or.inl ⟨v, hr, by rw [hinp], by rw [hinp]⟩
  · exact Or.inr ⟨hr, by rw [hinp], by rw [hinp]⟩

/-- Witness for C5 on the fallback record, whose rate value 4.0 is
present and becomes 0.04. -/
theorem getInputs_rate_handling_witness :
    getInputs (some usCountry) = some usInputs ∧
      ((∃ v, parseFiniteNumber (rateValueRaw (some usCountry)) = some v ∧
          usInputs.hasRate = true ∧ usInputs.interestRate = v / 100) ∨
        (parseFiniteNumber (rateValueRaw (some usCountry)) = none ∧
          usInputs.hasRate = false ∧ usInputs.interestRate = 0)) :=
  ⟨getInputs_us, getInputs_rate_handling usCountry usInputs getInputs_us⟩

/-- C10: a successful derivation always yields an inflation rate above
minus one, so the growth factor is positive for every horizon and the
loss formula divides by a nonzero quantity and denotes a real number. -/
theorem getInputs_safe_for_computeLoss (copt : Option Country)
    (inp : Inputs) (h : getInputs copt = some inp) :
    -1 < inp.inflationRate ∧
      (∀ n : ℝ, 0 < (1 + (inp.inflationRate : ℝ)) ^ n) ∧
      ∀ P r n : ℝ, computeLoss P (inp.inflationRate : ℝ) r n =
        P + P * ((1 + r) ^ n / (1 + (inp.inflationRate : ℝ)) ^ n) -
          2 * (P / (1 + (inp.inflationRate : ℝ)) ^ n) := by
  have h1 : -1 < inp.inflationRate := getInputs_inflation_gt copt inp h
  have h1r : (-1:ℝ) < (inp.inflationRate : ℝ) := by exact_mod_cast h1
  have h2 : (0:ℝ) < 1 + (inp.inflationRate : ℝ) := by linarith
  exact ⟨h1, fun n => Real.rpow_pos_of_pos h2 n,
    fun P r n => computeLoss_eq P _ r n h2⟩

/-- Witness for C10 on the fallback record at the ten-year horizon. -/
theorem getInputs_safe_for_computeLoss_witness :
    getInputs (some usCountry) = some usInputs ∧
      -1 < usInputs.inflationRate ∧
      0 < (1 + (usInputs.inflationRate : ℝ)) ^ (10:ℝ) :=
  ⟨getInputs_us,
    (getInputs_safe_for_computeLoss (some usCountry) usInputs getInputs_us).1,
    (getInputs_safe_for_computeLoss (some usCountry) usInputs
      getInputs_us).2.1 10⟩

/-- Counterexample to C2: on the fallback record and amount 10000 the
pipeline really displays the additive one-year value 610, but the
general formula at n = 1 gives 610000/1021, a different number. -/
theorem oneYearAdditive_ne_computeLoss :
    runCalculation (some 10000) (some usCountry) =
      DisplayResult.values (10000 * (21 / 1000) + 10000 * (1 / 25))
        (computeLoss 10000 (21 / 1000) (1 / 25) 5)
        (computeLoss 10000 (21 / 1000) (1 / 25) 10) ∧
      (10000:ℝ) * (21 / 1000) + 10000 * (1 / 25) ≠
        computeLoss 10000 (21 / 1000) (1 / 25) 1 := by
  constructor
  · simp only [runCalculation, getInputs_us, usInputs]
    rw [if_neg (by norm_num)]
    simp only [DisplayResult.values.injEq]
    norm_num
  · simp only [computeLoss, Real.rpow_one]
    norm_num

/-- C2 amended: the additive one-year value is (1 + i) times the general
formula at n = 1, so the two agree only when the inflation correction is
immaterial, not in general. -/
theorem oneYearAdditive_eq_scaled_computeLoss (P i r : ℝ)
    (h : 1 + i ≠ 0) :
    P * i + P * r = (1 + i) * computeLoss P i r 1 := by
  simp only [computeLoss, Real.rpow_one]
  field_simp
  try ring

/-- Witness for the amended C2 at concrete rates. -/
theorem oneYearAdditive_eq_scaled_computeLoss_witness :
    (1:ℝ) + 1 ≠ 0 ∧
      (1:ℝ) * 1 + 1 * (1 / 2) = (1 + 1) * computeLoss 1 1 (1 / 2) 1 :=
  ⟨by norm_num, oneYearAdditive_eq_scaled_computeLoss 1 1 (1 / 2)
    (by norm_num)⟩

/-- Counterexample to C7: with amount 1, inflation 10000 percent and
rate 50 percent, all positive, the loss at three years is strictly below
the loss at two years, so the loss is not strictly increasing in the
horizon for every positive pair of rates. -/
theorem computeLoss_not_strictMono_in_years :
    (0:ℝ) < 1 ∧ (0:ℝ) < 100 ∧ (0:ℝ) < 1 / 2 ∧ (2:ℝ) < 3 ∧
      computeLoss 1 100 (1 / 2) 3 < computeLoss 1 100 (1 / 2) 2 := by
  have h2 : ((1:ℝ) + 100) ^ (2:ℝ) = 10201 := by
    rw [show (2:ℝ) = ((2:ℕ):ℝ) by norm_num, Real.rpow_natCast]
    norm_num
  have h3 : ((1:ℝ) + 100) ^ (3:ℝ) = 1030301 := by
    rw [show (3:ℝ) = ((3:ℕ):ℝ) by norm_num, Real.rpow_natCast]
    norm_num
  have g2 : ((1:ℝ) + 1 / 2) ^ (2:ℝ) = 9 / 4 := by
    rw [show (2:ℝ) = ((2:ℕ):ℝ) by norm_num, Real.rpow_natCast]
    norm_num
  have g3 : ((1:ℝ) + 1 / 2) ^ (3:ℝ) = 27 / 8 := by
    rw [show (3:ℝ) = ((3:ℕ):ℝ) by norm_num, Real.rpow_natCast]
    norm_num
  refine ⟨by norm_num, by norm_num, by norm_num, by norm_num, ?_⟩
  simp only [computeLoss, h2, h3, g2, g3]
  norm_num

/-- C7 amended: for a fixed positive amount and rates with
0 < i ≤ r, the loss is strictly increasing in the horizon.  The extra
condition i ≤ r is needed: the counterexample shows strictness fails
when the interest rate is far below a very large inflation rate. -/
theorem computeLoss_strictMono_in_years (P i r n m : ℝ) (hP : 0 < P)
    (hi : 0 < i) (hir : i ≤ r) (hn : 0 < n) (hnm : n < m) :
    computeLoss P i r n < computeLoss P i r m := by
  have hb : (1:ℝ) < 1 + i := by linarith
  have hb0 : (0:ℝ) < 1 + i := by linarith
  have hc0 : (0:ℝ) < 1 + r := by linarith
  have hfn : (0:ℝ) < (1 + i) ^ n := Real.rpow_pos_of_pos hb0 n
  have hflt : (1 + i) ^ n < (1 + i) ^ m :=
    Real.rpow_lt_rpow_of_exponent_lt hb hnm
  have hdiv : P / (1 + i) ^ m < P / (1 + i) ^ n :=
    div_lt_div_of_pos_left hP hfn hflt
  have hratio : (1:ℝ) ≤ (1 + r) / (1 + i) :=
    (one_le_div hb0).mpr (by linarith)
  have hrle : ((1 + r) / (1 + i)) ^ n ≤ ((1 + r) / (1 + i)) ^ m :=
    Real.rpow_le_rpow_of_exponent_le hratio hnm.le
  rw [Real.div_rpow hc0.le hb0.le, Real.div_rpow hc0.le hb0.le] at hrle
  have hmul : P * ((1 + r) ^ n / (1 + i) ^ n) ≤
      P * ((1 + r) ^ m / (1 + i) ^ m) :=
    mul_le_mul_of_nonneg_left hrle hP.le
  rw [computeLoss_eq P i r n hb0, computeLoss_eq P i r m hb0]
  linarith

/-- Witness for the amended C7 at concrete amount, rates and horizons. -/
theorem computeLoss_strictMono_in_years_witness :
    (0:ℝ) < 1 ∧ (0:ℝ) < 1 / 100 ∧ (1:ℝ) / 100 ≤ 1 / 50 ∧ (0:ℝ) < 1 ∧
      (1:ℝ) < 2 ∧
      computeLoss 1 (1 / 100) (1 / 50) 1 <
        computeLoss 1 (1 / 100) (1 / 50) 2 :=
  ⟨by norm_num, by norm_num, by norm_num, by norm_num, by norm_num,
    computeLoss_strictMono_in_years 1 (1 / 100) (1 / 50) 1 2 (by norm_num)
      (by norm_num) (by norm_num) (by norm_num) (by norm_num)⟩

/-- C8: for every amount and country the pipeline either shows the
neutral placeholder, or the derivation succeeded, its growth base is
strictly positive (so no power is zero and no division is degenerate),
and the displayed values are exactly the three real loss numbers. -/
theorem runCalculation_never_nonfinite (a : Option ℚ)
    (copt : Option Country) :
    runCalculation a copt = DisplayResult.unavailable ∨
    ∃ inp aq, getInputs copt = some inp ∧ a = some aq ∧
      0 < 1 + (inp.inflationRate : ℝ) ∧
      (∀ n : ℝ, (1 + (inp.inflationRate : ℝ)) ^ n ≠ 0) ∧
      runCalculation a copt = DisplayResult.values
        ((aq : ℝ) * (inp.inflationRate : ℝ) +
          (aq : ℝ) * (inp.interestRate : ℝ))
        (computeLoss (aq : ℝ) (inp.inflationRate : ℝ)
          (inp.interestRate : ℝ) 5)
        (computeLoss (aq : ℝ) (inp.inflationRate : ℝ)
          (inp.interestRate : ℝ) 10) := by
  cases a with
  | none => exact Or.inl rfl
  | some aq =>
    by_cases hneg : aq < 0
    · exact Or.inl (by simp [runCalculation, hneg])
    · cases copt with
      | none => exact Or.inl (by simp [runCalculation, hneg])
      | some c =>
        cases hres : getInputs (some c) with
        | none => exact Or.inl (by simp [runCalculation, hneg, hres])
        | some inp =>
          have h1 : -1 < inp.inflationRate := getInputs_inflation_gt _ _ hres
          have h1r : (-1:ℝ) < (inp.inflationRate : ℝ) := by exact_mod_cast h1
          have h2 : (0:ℝ) < 1 + (inp.inflationRate : ℝ) := by linarith
          refine Or.inr ⟨inp, aq, ?_, ?_, ?_, ?_, ?_⟩
          · rfl
          · rfl
          · exact h2
          · exact fun n => ne_of_gt (Real.rpow_pos_of_pos h2 n)
          · simp [runCalculation, hneg, hres]

/-- Escape of a single character, as performed by the five global
replacements of `escapeHtml` in the source.  The sequential replacements
equal one character pass because no replacement string contains a
character that a later replacement targets. -/
def escapeChar (ch : Char) : String :=
  if ch = '&' then "&amp;"
  else if ch = '<' then "&lt;"
  else if ch = '>' then "&gt;"
  else if ch = '"' then "&quot;"
  else if ch = '\x27' then "&#39;"
  else String.singleton ch

/-- Embeds `escapeHtml` from the source. -/
def escapeHtml (value : String) : String :=
  String.join (value.data.map escapeChar)

/-- Models the JavaScript coercion of a parsed number (or `null`) to a
string when concatenated into markup; the exact decimal rendering is
display-only and no theorem depends on it. -/
def jsNumToString : Option ℚ → String
  | none => "null"
  | some q => toString q

/-- Embeds `formatPercent` from the source: the decimal value times one
hundred, rendered via toFixed(3), with trailing zeros (and a bare
decimal point) stripped. -/
def formatPercent (valueDecimal : ℚ) : String :=
  let scaled : ℤ := ⌊valueDecimal * 100 * 1000 + 1 / 2⌋
  let sign := if scaled < 0 then "-" else ""
  let m := scaled.natAbs
  let intStr := toString (m / 1000)
  let fracDigits := Nat.toDigits 10 (m % 1000)
  let padded := List.replicate (3 - fracDigits.length) '0' ++ fracDigits
  let stripped := (padded.reverse.dropWhile fun ch => ch = '0').reverse
  if stripped.isEmpty then sign ++ intStr
  else sign ++ intStr ++ "." ++ String.mk stripped

/-- The placeholder popup markup returned when no country is selected,
the record has no CPI object, or the inputs are unavailable. -/
def noCountryPopup : String :=
  "<h3 id=\"popup-title\">How these numbers are calculated</h3><p>Select a country to see concrete inputs and formulas.</p>"

/-- The plain-language note emitted when the interest rate is missing
for the selected country. -/
def interestUnavailableNote : String :=
  "Short-term interest rate is unavailable for this country in the current IMF dataset. This calculator uses inflation-only mode (interestRate = 0)."

/-- Access `country.rate.date`; the source only reads it when a rate
value is present. -/
def rateDate (c : Country) : String :=
  match c.rate with
  | none => "undefined"
  | some rt => rt.date

/-- The popup title and inflation section of the markup built by
`buildHowCalculatedPopup`. -/
def popupTitleAndInflation (c : Country) (cpi : Cpi) (inp : Inputs) :
    String :=
  let cpiLatest := parseFiniteNumber cpi.latest
  let cpiPrevious := parseFiniteNumber cpi.previous
  let inflationFormula := "inflationRate = (latestCPI / previousCPI) - 1"
  let inflationSubstitution := "inflationRate = (" ++
    jsNumToString cpiLatest ++ " / " ++ jsNumToString cpiPrevious ++
    ") - 1 = " ++ formatPercent inp.inflationRate ++ "%"
  "<h3 id=\"popup-title\">How these numbers are calculated for " ++
    escapeHtml c.name ++ "</h3>" ++
    "<div class=\"popup-section\">" ++
    "<h4>Inflation input from IMF CPI index</h4>" ++
    "<p>Latest CPI: <strong>" ++ escapeHtml (jsNumToString cpiLatest) ++
    "</strong> (" ++ escapeHtml cpi.latestDate ++ ")</p>" ++
    "<p>Previous CPI: <strong>" ++ escapeHtml (jsNumToString cpiPrevious) ++
    "</strong> (" ++ escapeHtml cpi.previousDate ++ ")</p>" ++
    "<p><code>" ++ escapeHtml inflationFormula ++ "</code></p>" ++
    "<p><code>" ++ escapeHtml inflationSubstitution ++ "</code></p>" ++
    "</div>"

/-- The interest section of the popup markup: a substituted formula when
the rate value is present, the plain-language note otherwise. -/
def popupInterestSection (c : Country) (inp : Inputs) : String :=
  let rateValue := parseFiniteNumber (rateValueRaw (some c))
  let interestFormula := "interestRate = rateValue / 100"
  "<div class=\"popup-section\">" ++
    "<h4>Interest input from IMF short-term rate</h4>" ++
    (match rateValue with
      | some v =>
        "<p>Rate value: <strong>" ++ escapeHtml (jsNumToString (some v)) ++
          "%</strong> (" ++ escapeHtml (rateDate c) ++ ")</p>" ++
          "<p><code>" ++ escapeHtml interestFormula ++ "</code></p>" ++
          "<p><code>" ++ escapeHtml ("interestRate = " ++
            jsNumToString (some v) ++ " / 100 = " ++
            formatPercent inp.interestRate ++ "%") ++ "</code></p>"
      | none => "<p>" ++ escapeHtml interestUnavailableNote ++ "</p>") ++
    "</div>"

/-- The loss-formula section and the source line of the popup markup. -/
def popupLossAndSource : String :=
  "<div class=\"popup-section\">" ++
    "<h4>Loss formulas used on this page</h4>" ++
    "<p><code>" ++ escapeHtml "1-year loss = P * i + P * r" ++
    "</code></p>" ++
    "<p><code>" ++
    escapeHtml "loss = P * (1 - 1/(1+i)^n) + (P/(1+i)^n) * ((1+r)^n - 1)" ++
    "</code></p>" ++
    "<p>" ++
    escapeHtml "P = amount, i = inflationRate, r = interestRate, n = years" ++
    "</p>" ++
    "<p>Total loss = purchasing power erosion from inflation + missed growth from not earning interest.</p>" ++
    "</div>" ++
    "<p class=\"popup-source\">Based on <a href=\"https://data.imf.org\" target=\"_blank\" rel=\"noopener noreferrer\">IMF Data</a></p>"

/-- Embeds `buildHowCalculatedPopup` from the source: without a country,
a CPI object, or inputs it returns the generic placeholder; otherwise it
concatenates the title and inflation section, the interest section and
the loss section. -/
def buildHowCalculatedPopup (country : Option Country)
    (inputs : Option Inputs) : String :=
  match country with
  | none => noCountryPopup
  | some c =>
    match c.cpi with
    | none => noCountryPopup
    | some cpi =>
      match inputs with
      | none => noCountryPopup
      | some inp =>
        popupTitleAndInflation c cpi inp ++ popupInterestSection c inp ++
          popupLossAndSource

set_option maxRecDepth 20000 in
/-- The unavailable note contains none of the five escaped characters,
so escaping leaves it unchanged. -/
theorem escapeHtml_fixed_note :
    escapeHtml interestUnavailableNote = interestUnavailableNote := by
  decide

/-- C9: when the derived rates have no interest rate the popup contains
the plain-language unavailable note in place of a substituted interest
formula, and a missing country, a record without a CPI object, or
unavailable inputs all produce the generic placeholder markup, never a
failure. -/
theorem buildHowCalculatedPopup_degraded :
    (∀ (c : Country) (inp : Inputs), getInputs (some c) = some inp →
      inp.hasRate = false →
      ∃ pre post, buildHowCalculatedPopup (some c) (some inp) =
        pre ++ interestUnavailableNote ++ post) ∧
    (∀ inputs, buildHowCalculatedPopup none inputs = noCountryPopup) ∧
    (∀ (c : Country) (inputs : Option Inputs), c.cpi = none →
      buildHowCalculatedPopup (some c) inputs = noCountryPopup) ∧
    (∀ c : Country, buildHowCalculatedPopup (some c) none = noCountryPopup)
    := by
  refine ⟨?_, fun inputs => rfl, ?_, ?_⟩
  · intro c inp hinp hfalse
    obtain ⟨cp, l, p, hcpi, _, _, _, _, hcase⟩ :=
      getInputs_some_elim c inp hinp
    have hr : parseFiniteNumber (rateValueRaw (some c)) = none := by
      rcases hcase with ⟨v, hv, hinp2⟩ | ⟨hr, _⟩
      · rw [hinp2] at hfalse; exact absurd hfalse (by simp)
      · exact hr
    refine ⟨popupTitleAndInflation c cp inp ++
      ("<div class=\"popup-section\">" ++
        "<h4>Interest input from IMF short-term rate</h4>" ++ "<p>"),
      "</p>" ++ "</div>" ++ popupLossAndSource, ?_⟩
    simp only [buildHowCalculatedPopup, hcpi, popupInterestSection, hr,
      escapeHtml_fixed_note, String.append_assoc]
  · intro c inputs hc
    simp only [buildHowCalculatedPopup, hc]
  · intro c
    cases hcc : c.cpi <;> simp [buildHowCalculatedPopup, hcc]

/-- A record with a valid CPI pair and no rate field at all. -/
def noRateCountry : Country :=
  { id := "XX"
    name := "Norateland"
    currencyCode := "XXD"
    currencySymbol := "x"
    cpi := some ⟨RawVal.num 103, "2024-M12", RawVal.num 100, "2023-M12"⟩
    rate := none }

/-- The rates the derivation produces for `noRateCountry`. -/
def noRateInputs : Inputs := ⟨3 / 100, 0, false⟩

/-- Evaluation of the derivation on the record without a rate field. -/
theorem getInputs_noRate :
    getInputs (some noRateCountry) = some noRateInputs := by
  simp only [getInputs, noRateCountry, noRateInputs, cpiLatestRaw,
    cpiPreviousRaw, rateValueRaw, parseFiniteNumber, Option.some_bind]
  norm_num

/-- Witness for C9: the record without a rate field derives rates with
hasRate false and its popup contains the unavailable note. -/
theorem buildHowCalculatedPopup_degraded_witness :
    getInputs (some noRateCountry) = some noRateInputs ∧
      noRateInputs.hasRate = false ∧
      ∃ pre post,
        buildHowCalculatedPopup (some noRateCountry) (some noRateInputs) =
          pre ++ interestUnavailableNote ++ post :=
  ⟨getInputs_noRate, rfl,
    buildHowCalculatedPopup_degraded.1 noRateCountry noRateInputs
      getInputs_noRate rfl⟩
